import Mathlib

/-!
Verification of `net/icmpv6/icmpv6_rnotify.c` (NuttX ICMPv6 autoconfiguration
router-advertisement wait/notify core).

The module keeps a singly-linked list `g_icmpv6_rwaiters` of caller-owned
wait entries (`struct icmpv6_rnotify_s`).  Four operations act on it:
`icmpv6_rwait_setup` (register, head insertion), `icmpv6_rnotify` (deliver:
scan for the first unsatisfied matching entry, configure the device, set the
result and post the semaphore), `icmpv6_rwait` (timed wait then unconditional
cancel) and `icmpv6_rwait_cancel` (unlink by pointer identity, destroy the
semaphore).  `icmpv6_setaddresses` applies the advertised configuration to
the network device.

The embedding is shallow: IPv6 addresses are functions `Fin 8 → Nat` of
16-bit words (values, independent of the in-memory byte order), the waiter
list is a Lean list whose entries carry a `Nat` address standing for C
pointer identity, and the semaphore is represented by its post count plus a
flag recording that `nxsem_destroy` ran.
-/

namespace Rnotify

/-- An IPv6 address as its eight 16-bit words, word 0 first
(`net_ipv6addr_t` is `uint16_t[8]`). -/
abbrev IPv6Addr := Fin 8 → Nat

/-- The `OK` status code (0, from NuttX). -/
def OK : Int := 0

/-- The `ETIMEDOUT` errno value (a positive constant; the module stores and
returns `-ETIMEDOUT`).  The exact value is irrelevant, only that it is
nonzero. -/
def ETIMEDOUT : Int := 116

/-- The `ENOENT` errno value. -/
def ENOENT : Int := 2

/-- The relevant fields of `struct net_driver_s`. -/
structure NetDriver where
  d_ifname : String
  d_ipv6addr : IPv6Addr
  d_ipv6netmask : IPv6Addr
  d_ipv6draddr : IPv6Addr

/-- Modelled from the spec: `net_ipv6_pref2mask` (the
"address-mask-from-prefix-length utility" consumed from `utils/utils.h`,
whose source is not part of this unit).  Word `i` of the mask has its top
`min 16 (preflen - 16*i)` bits set (natural subtraction truncates at 0), so
a `/64` prefix yields `ffff:ffff:ffff:ffff:0:0:0:0`. -/
def net_ipv6_pref2mask (preflen : Nat) : IPv6Addr :=
  fun i => 2 ^ 16 - 2 ^ (16 - min 16 (preflen - 16 * i.val))

/-- The function `icmpv6_setaddresses`: clamp `preflen` to 128, derive the netmask from
it, merge the advertised prefix into words 0..6 of the device address under
the mask (`dev->d_ipv6addr[i] = (dev->d_ipv6addr[i] & ~netmask[i]) |
(pfx[i] & netmask[i])` for `i < 7`; the source loop stops at 7, leaving
word 7 untouched), and copy the advertising router address into
`d_ipv6draddr` (`net_ipv6addr_copy`, a full 8-word copy).  The 16-bit
complement `~netmask[i]` is `netmask[i] ^^^ 0xffff`. -/
def icmpv6_setaddresses (dev : NetDriver) (draddr pfx : IPv6Addr)
    (preflen : Nat) : NetDriver :=
  let plen := if preflen > 128 then 128 else preflen
  let mask := net_ipv6_pref2mask plen
  { d_ifname := dev.d_ifname
    d_ipv6netmask := mask
    d_ipv6addr := fun i =>
      if i.val < 7 then
        (dev.d_ipv6addr i &&& (mask i ^^^ 65535)) ||| (pfx i &&& mask i)
      else
        dev.d_ipv6addr i
    d_ipv6draddr := draddr }

/-- One wait entry, `struct icmpv6_rnotify_s`.  `addr` stands for the C
pointer identity of the caller-owned structure; `rn_sem` is the semaphore
modelled by its post count (initialized 0 by `nxsem_init(&sem, 0, 0)`). -/
structure RNotify where
  addr : Nat
  rn_ifname : String
  rn_result : Int
  rn_sem : Nat
  deriving Repr, DecidableEq

/-- The function `icmpv6_rwait_setup`: copy the interface name, set `rn_result` to the
`-ETIMEDOUT` sentinel, initialize the semaphore to 0, and insert the entry
at the head of `g_icmpv6_rwaiters`. -/
def icmpv6_rwait_setup (ifname : String) (a : Nat) (reg : List RNotify) :
    List RNotify :=
  { addr := a, rn_ifname := ifname, rn_result := -ETIMEDOUT, rn_sem := 0 }
    :: reg

/-- The scan predicate of `icmpv6_rnotify`:
`curr->rn_result != OK && strncmp(curr->rn_ifname, dev->d_ifname, IFNAMSIZ) == 0`. -/
def rnotifyMatch (devIf : String) (e : RNotify) : Bool :=
  e.rn_result != OK && e.rn_ifname == devIf

/-- The function `icmpv6_rnotify`: walk `g_icmpv6_rwaiters` front to back; at the first
entry matching `rnotifyMatch`, call `icmpv6_setaddresses`, set
`rn_result = OK`, post the semaphore and `break`.  Entries before the match
and after it are untouched; with no match the walk falls off the list and
nothing happens.  Returns the (possibly updated) device and registry. -/
def icmpv6_rnotify (dev : NetDriver) (draddr pfx : IPv6Addr) (preflen : Nat) :
    List RNotify → NetDriver × List RNotify
  | [] => (dev, [])
  | e :: rest =>
    if rnotifyMatch dev.d_ifname e then
      (icmpv6_setaddresses dev draddr pfx preflen,
       { e with rn_result := OK, rn_sem := e.rn_sem + 1 } :: rest)
    else
      let r := icmpv6_rnotify dev draddr pfx preflen rest
      (r.1, e :: r.2)

/-- Unlink the first (by scan order) entry whose pointer identity is `a`:
the `prev`/`curr` walk of `icmpv6_rwait_cancel`, including the head update
when `prev == NULL`. -/
def removeFirst (a : Nat) : List RNotify → List RNotify
  | [] => []
  | e :: rest => if e.addr = a then rest else e :: removeFirst a rest

/-- Whether some entry in the registry has pointer identity `a`. -/
def containsAddr (a : Nat) (reg : List RNotify) : Bool :=
  reg.any (·.addr == a)

/-- The function `icmpv6_rwait_cancel`: walk the list for the entry with pointer
identity `a`; if found unlink it and return `OK`, otherwise leave the list
alone and return `-ENOENT`; in both cases `nxsem_destroy` runs before
returning (third component `true` records that call). -/
def icmpv6_rwait_cancel (a : Nat) (reg : List RNotify) :
    List RNotify × Int × Bool :=
  if containsAddr a reg then (removeFirst a reg, OK, true)
  else (reg, -ENOENT, true)

/-- Look up the entry with pointer identity `a` (dereferencing the caller's
pointer into the registry state). -/
def findAddr (a : Nat) (reg : List RNotify) : Option RNotify :=
  reg.find? (·.addr == a)

/-- The function `icmpv6_rwait`: `waitRet` is the value returned by
`net_timedwait(&notify->rn_sem, timeout)` (`≥ 0` on success, a negated
errno on failure, `-ETIMEDOUT` on timeout).  If `waitRet >= 0` the return
value becomes `notify->rn_result`, otherwise `waitRet` is kept; then
`icmpv6_rwait_cancel` runs unconditionally.  Result: (return value, new
registry, cancel status, semaphore destroyed). -/
def icmpv6_rwait (waitRet : Int) (a : Nat) (reg : List RNotify) :
    Int × List RNotify × Int × Bool :=
  let ret := if waitRet ≥ 0
             then (((findAddr a reg).map (·.rn_result)).getD 0)
             else waitRet
  let c := icmpv6_rwait_cancel a reg
  (ret, c.1, c.2.1, c.2.2)

/-- One registry-mutating operation of the module, for reasoning about
arbitrary operation sequences (the registry effect of `icmpv6_rwait` is
exactly that of `icmpv6_rwait_cancel`, so it needs no separate case). -/
inductive Op where
  | setup (ifname : String) (a : Nat)
  | deliver (dev : NetDriver) (draddr pfx : IPv6Addr) (preflen : Nat)
  | cancel (a : Nat)

/-- The registry after one operation. -/
def runOp (reg : List RNotify) : Op → List RNotify
  | .setup ifn a => icmpv6_rwait_setup ifn a reg
  | .deliver dev draddr pfx preflen => (icmpv6_rnotify dev draddr pfx preflen reg).2
  | .cancel a => (icmpv6_rwait_cancel a reg).1

/-- The registry after a sequence of operations. -/
def run (reg : List RNotify) (ops : List Op) : List RNotify :=
  ops.foldl runOp reg

/-- Every entry's `rn_result` is either the registration-time `-ETIMEDOUT`
sentinel or `OK` (the only two values ever stored by the module). -/
def resultInv (reg : List RNotify) : Prop :=
  ∀ e ∈ reg, e.rn_result = -ETIMEDOUT ∨ e.rn_result = OK

/-- Every entry with pointer identity `a` in the registry has already been
satisfied (its `rn_result` is `OK`). -/
def addrSatisfied (a : Nat) (reg : List RNotify) : Prop :=
  ∀ e ∈ reg, e.addr = a → e.rn_result = OK

/-- Sample address with every 16-bit word equal to 1. -/
def sampleAddr : IPv6Addr := fun _ => 1

/-- Sample advertised network address with every 16-bit word equal to 2. -/
def samplePfx : IPv6Addr := fun _ => 2

/-- The all-zero address. -/
def zeroAddr : IPv6Addr := fun _ => 0

/-- Sample network device. -/
def sampleDev : NetDriver :=
  { d_ifname := "eth0", d_ipv6addr := sampleAddr,
    d_ipv6netmask := zeroAddr, d_ipv6draddr := zeroAddr }

/-- Sample unsatisfied entry waiting on interface "eth0". -/
def sampleEntry : RNotify :=
  { addr := 1, rn_ifname := "eth0", rn_result := -ETIMEDOUT, rn_sem := 0 }

/-- Sample already-satisfied entry on interface "eth0". -/
def sampleEntryOK : RNotify :=
  { addr := 3, rn_ifname := "eth0", rn_result := OK, rn_sem := 1 }

/-- Sample entry waiting on a different interface "wlan0". -/
def sampleEntryOther : RNotify :=
  { addr := 2, rn_ifname := "wlan0", rn_result := -ETIMEDOUT, rn_sem := 0 }

/-!  Theorems.  -/

/-- C8: before the netmask is derived during a successful delivery the
prefix length is clamped to 128: for every prefix length `L` the whole
device configuration produced by `icmpv6_setaddresses` equals the one
produced for `min L 128`, and the netmask written to the device is the one
derived from `min L 128`; in particular any `L > 128` behaves exactly like
`L = 128`. -/
theorem setaddresses_clamps_preflen (dev : NetDriver) (draddr pfx : IPv6Addr)
    (L : Nat) :
    icmpv6_setaddresses dev draddr pfx L
      = icmpv6_setaddresses dev draddr pfx (min L 128)
    ∧ (icmpv6_setaddresses dev draddr pfx L).d_ipv6netmask
      = net_ipv6_pref2mask (min L 128) := by
  have h1 : (if L > 128 then 128 else L) = min L 128 := by split <;> omega
  have h2 : (if min L 128 > 128 then 128 else min L 128) = min L 128 := by
    split <;> omega
  constructor
  · simp only [icmpv6_setaddresses, h1, h2]
  · simp only [icmpv6_setaddresses, h1]

/-- C9: the last 16-bit word (index 7) of the device IPv6 address is left
unchanged by `icmpv6_setaddresses` regardless of the advertised network
address, the prefix length and the derived mask: the merge loop covers only
word indices 0 through 6. -/
theorem setaddresses_word7_unchanged (dev : NetDriver) (draddr pfx : IPv6Addr)
    (L : Nat) :
    (icmpv6_setaddresses dev draddr pfx L).d_ipv6addr 7 = dev.d_ipv6addr 7 := by
  have h7 : ¬ ((7 : Fin 8).val < 7) := by decide
  simp [icmpv6_setaddresses, h7]

/-- C6: a delivery whose interface id matches no registered unsatisfied
entry is a no-op: `icmpv6_rnotify` returns the device and the registry
unchanged, so no entry's result or semaphore is touched and no
configuration mutation happens. -/
theorem rnotify_unmatched_noop (dev : NetDriver) (draddr pfx : IPv6Addr)
    (preflen : Nat) (reg : List RNotify)
    (h : ∀ e ∈ reg, e.rn_ifname = dev.d_ifname → e.rn_result = OK) :
    icmpv6_rnotify dev draddr pfx preflen reg = (dev, reg) := by
  induction reg with
  | nil => rfl
  | cons e rest ih =>
    have hm : rnotifyMatch dev.d_ifname e = false := by
      unfold rnotifyMatch
      by_cases hc : e.rn_ifname = dev.d_ifname
      · have hr := h e (List.mem_cons_self _ _) hc
        simp [hr]
      · simp [hc]
    have ih' := ih (fun e' h' hc => h e' (List.mem_cons_of_mem _ h') hc)
    simp [icmpv6_rnotify, hm, ih']

/-- Witness for `rnotify_unmatched_noop`: a registry holding one waiter for
a different interface and one already-satisfied waiter for the device's
interface is returned unchanged. -/
theorem rnotify_unmatched_noop_witness :
    icmpv6_rnotify sampleDev zeroAddr samplePfx 64
        [sampleEntryOther, sampleEntryOK]
      = (sampleDev, [sampleEntryOther, sampleEntryOK]) :=
  rnotify_unmatched_noop sampleDev zeroAddr samplePfx 64
    [sampleEntryOther, sampleEntryOK] (by decide)

/-- C1 counterexample: with a `/128` prefix length the claimed word-by-word
merge fails at word 7.  Concretely, for a device whose address words are all
1 and an advertised network address whose words are all 2, the derived mask
is all-ones, so the claimed merge would set word 7 to 2; the code leaves it
at 1 because its loop stops at index 7. -/
theorem setaddresses_merge_counterexample :
    ¬ (∀ i : Fin 8,
      (icmpv6_setaddresses sampleDev zeroAddr samplePfx 128).d_ipv6addr i
        = (sampleDev.d_ipv6addr i
            &&& ((icmpv6_setaddresses sampleDev zeroAddr samplePfx
                  128).d_ipv6netmask i ^^^ 65535))
          ||| (samplePfx i
            &&& (icmpv6_setaddresses sampleDev zeroAddr samplePfx
                  128).d_ipv6netmask i)) := by
  decide

/-- C1 (amended): during a successful delivery, each of the first seven
16-bit words of the interface address is updated so that bits selected by
the netmask come from the advertised network address and bits outside the
mask keep their previous value; the last word (index 7) keeps its previous
value entirely; the advertising router's address is copied verbatim into
the default-router field. -/
theorem setaddresses_merge_amended (dev : NetDriver) (draddr pfx : IPv6Addr)
    (L : Nat) :
    (∀ i : Fin 8, i.val < 7 →
      (icmpv6_setaddresses dev draddr pfx L).d_ipv6addr i
        = (dev.d_ipv6addr i
            &&& ((icmpv6_setaddresses dev draddr pfx L).d_ipv6netmask i
                  ^^^ 65535))
          ||| (pfx i
            &&& (icmpv6_setaddresses dev draddr pfx L).d_ipv6netmask i))
    ∧ (icmpv6_setaddresses dev draddr pfx L).d_ipv6addr 7 = dev.d_ipv6addr 7
    ∧ (icmpv6_setaddresses dev draddr pfx L).d_ipv6draddr = draddr := by
  refine ⟨?_, ?_, rfl⟩
  · intro i hi
    simp [icmpv6_setaddresses, hi]
  · have h7 : ¬ ((7 : Fin 8).val < 7) := by decide
    simp [icmpv6_setaddresses, h7]

/-- Witness for `setaddresses_merge_amended` at word 0 of a concrete
configuration. -/
theorem setaddresses_merge_amended_witness :
    (icmpv6_setaddresses sampleDev sampleAddr samplePfx 64).d_ipv6addr 0
      = (sampleDev.d_ipv6addr 0
          &&& ((icmpv6_setaddresses sampleDev sampleAddr samplePfx
                64).d_ipv6netmask 0 ^^^ 65535))
        ||| (samplePfx 0
          &&& (icmpv6_setaddresses sampleDev sampleAddr samplePfx
                64).d_ipv6netmask 0)
    ∧ (icmpv6_setaddresses sampleDev sampleAddr samplePfx 64).d_ipv6addr 7
      = sampleDev.d_ipv6addr 7
    ∧ (icmpv6_setaddresses sampleDev sampleAddr samplePfx 64).d_ipv6draddr
      = sampleAddr := by
  have h := setaddresses_merge_amended sampleDev sampleAddr samplePfx 64
  exact ⟨h.1 0 (by decide), h.2.1, h.2.2⟩

/-- Removing an entry that sits after a prefix of entries with other
identities drops exactly that entry. -/
theorem removeFirst_decomp (a : Nat) (pre : List RNotify) (e : RNotify)
    (post : List RNotify) (ha : e.addr = a)
    (hpre : ∀ x ∈ pre, x.addr ≠ a) :
    removeFirst a (pre ++ e :: post) = pre ++ post := by
  induction pre with
  | nil => simp [removeFirst, ha]
  | cons x rest ih =>
    have hx : x.addr ≠ a := hpre x (List.mem_cons_self _ _)
    simp [removeFirst, hx,
          ih (fun y hy => hpre y (List.mem_cons_of_mem _ hy))]

/-- A registry holding an entry with identity `a` contains identity `a`. -/
theorem containsAddr_true_of (a : Nat) (e : RNotify) (reg : List RNotify)
    (he : e ∈ reg) (ha : e.addr = a) : containsAddr a reg = true := by
  simp only [containsAddr, List.any_eq_true, beq_iff_eq]
  exact ⟨e, he, ha⟩

/-- A registry with no entry of identity `a` does not contain identity
`a`. -/
theorem containsAddr_false_of (a : Nat) (reg : List RNotify)
    (h : ∀ x ∈ reg, x.addr ≠ a) : containsAddr a reg = false := by
  rw [Bool.eq_false_iff]
  intro hc
  simp only [containsAddr, List.any_eq_true, beq_iff_eq] at hc
  rcases hc with ⟨x, hx, hxa⟩
  exact h x hx hxa

/-- C7: `icmpv6_rwait_cancel` locates the entry by pointer identity; when
the entry is present (first occurrence after a prefix of other entries,
covering the head update when the prefix is empty) it is unlinked and `OK`
is returned; when no entry has that identity the registry is unchanged and
`-ENOENT` is returned, a status distinct from `OK`; in both cases the
semaphore-destroy step runs before returning. -/
theorem rwait_cancel_spec (a : Nat) (reg : List RNotify) :
    (icmpv6_rwait_cancel a reg).2.2 = true
    ∧ (∀ pre e post, reg = pre ++ e :: post → e.addr = a →
        (∀ x ∈ pre, x.addr ≠ a) →
        icmpv6_rwait_cancel a reg = (pre ++ post, OK, true))
    ∧ ((∀ x ∈ reg, x.addr ≠ a) →
        icmpv6_rwait_cancel a reg = (reg, -ENOENT, true))
    ∧ (-ENOENT : Int) ≠ OK := by
  refine ⟨?_, ?_, ?_, by decide⟩
  · unfold icmpv6_rwait_cancel
    split <;> rfl
  · intro pre e post hreg ha hpre
    subst hreg
    have hc : containsAddr a (pre ++ e :: post) = true :=
      containsAddr_true_of a e _ (by simp) ha
    simp [icmpv6_rwait_cancel, hc, removeFirst_decomp a pre e post ha hpre]
  · intro h
    have hc : containsAddr a reg = false := containsAddr_false_of a reg h
    simp [icmpv6_rwait_cancel, hc]

/-- Witness for `rwait_cancel_spec`: canceling identity 1 in a two-entry
registry unlinks exactly the matching entry and reports `OK`; canceling an
absent identity 5 leaves the registry unchanged and reports `-ENOENT`. -/
theorem rwait_cancel_spec_witness :
    icmpv6_rwait_cancel 1 [sampleEntryOther, sampleEntry]
      = ([sampleEntryOther], OK, true)
    ∧ icmpv6_rwait_cancel 5 [sampleEntryOther] = ([sampleEntryOther], -ENOENT, true) := by
  constructor
  · have h := (rwait_cancel_spec 1 [sampleEntryOther, sampleEntry]).2.1
      [sampleEntryOther] sampleEntry [] rfl rfl (by decide)
    simpa using h
  · exact (rwait_cancel_spec 5 [sampleEntryOther]).2.2.1 (by decide)

/-- C10: canceling an entry that is present unlinks exactly that entry:
the registry afterwards is the concatenation of the entries before it and
the entries after it, unchanged in value and relative order. -/
theorem rwait_cancel_frame (a : Nat) (pre : List RNotify) (e : RNotify)
    (post : List RNotify) (ha : e.addr = a)
    (hpre : ∀ x ∈ pre, x.addr ≠ a) :
    (icmpv6_rwait_cancel a (pre ++ e :: post)).1 = pre ++ post := by
  have hc : containsAddr a (pre ++ e :: post) = true :=
    containsAddr_true_of a e _ (by simp) ha
  simp [icmpv6_rwait_cancel, hc, removeFirst_decomp a pre e post ha hpre]

/-- Witness for `rwait_cancel_frame`: canceling the middle entry of a
three-entry registry keeps the outer two in order. -/
theorem rwait_cancel_frame_witness :
    (icmpv6_rwait_cancel 1 [sampleEntryOther, sampleEntry, sampleEntryOK]).1
      = [sampleEntryOther, sampleEntryOK] := by
  have h := rwait_cancel_frame 1 [sampleEntryOther] sampleEntry
    [sampleEntryOK] rfl (by decide)
  simpa using h

/-- C2: with two (or more) unsatisfied waiters registered for the same
interface, one delivery satisfies exactly the first-encountered entry in
scan order, which is the most recently registered one because
`icmpv6_rwait_setup` inserts at the head: its result becomes `OK` and its
semaphore is posted once, while the earlier waiter keeps the `-ETIMEDOUT`
sentinel and an unposted semaphore and every other entry is untouched. -/
theorem rnotify_satisfies_most_recent (dev : NetDriver)
    (draddr pfx : IPv6Addr) (preflen : Nat) (ifn : String) (a1 a2 : Nat)
    (reg0 : List RNotify) (h : dev.d_ifname = ifn) :
    icmpv6_rnotify dev draddr pfx preflen
        (icmpv6_rwait_setup ifn a2 (icmpv6_rwait_setup ifn a1 reg0))
      = (icmpv6_setaddresses dev draddr pfx preflen,
         { addr := a2, rn_ifname := ifn, rn_result := OK, rn_sem := 1 }
           :: { addr := a1, rn_ifname := ifn, rn_result := -ETIMEDOUT,
                rn_sem := 0 }
           :: reg0) := by
  subst h
  have hm : rnotifyMatch dev.d_ifname
      { addr := a2, rn_ifname := dev.d_ifname, rn_result := -ETIMEDOUT,
        rn_sem := 0 } = true := by
    simp [rnotifyMatch, ETIMEDOUT, OK]
  simp [icmpv6_rwait_setup, icmpv6_rnotify, hm]

/-- Witness for `rnotify_satisfies_most_recent` on a concrete device and
two waiters. -/
theorem rnotify_satisfies_most_recent_witness :
    icmpv6_rnotify sampleDev zeroAddr samplePfx 64
        (icmpv6_rwait_setup "eth0" 8 (icmpv6_rwait_setup "eth0" 9 []))
      = (icmpv6_setaddresses sampleDev zeroAddr samplePfx 64,
         [{ addr := 8, rn_ifname := "eth0", rn_result := OK, rn_sem := 1 },
          { addr := 9, rn_ifname := "eth0", rn_result := -ETIMEDOUT,
            rn_sem := 0 }]) :=
  rnotify_satisfies_most_recent sampleDev zeroAddr samplePfx 64 "eth0" 9 8 []
    rfl

/-- C5: the value returned by `icmpv6_rwait` is the entry's `rn_result`
when the underlying timed wait succeeds (`waitRet ≥ 0`), the `-ETIMEDOUT`
sentinel when the wait reports a timeout, and any other error code verbatim
— in the error case the result field is never consulted (the return value
is the error code for every registry whatsoever). -/
theorem rwait_return_value (waitRet : Int) (a : Nat) (reg : List RNotify)
    (e : RNotify) (he : findAddr a reg = some e) :
    (waitRet ≥ 0 → (icmpv6_rwait waitRet a reg).1 = e.rn_result)
    ∧ (waitRet = -ETIMEDOUT → (icmpv6_rwait waitRet a reg).1 = -ETIMEDOUT)
    ∧ (∀ v : Int, v < 0 → ∀ reg' : List RNotify,
        (icmpv6_rwait v a reg').1 = v) := by
  refine ⟨?_, ?_, ?_⟩
  · intro hw
    simp [icmpv6_rwait, hw, he]
  · intro hw
    subst hw
    have hn : ¬ ((-ETIMEDOUT : Int) ≥ 0) := by decide
    simp [icmpv6_rwait, hn]
  · intro v hv reg'
    have hn : ¬ (v ≥ 0) := by omega
    simp [icmpv6_rwait, hn]

/-- Witness for `rwait_return_value` on a one-entry registry: a successful
wait returns the stored result, a timed-out wait returns `-ETIMEDOUT`, and
another error `-5` is propagated verbatim. -/
theorem rwait_return_value_witness :
    (icmpv6_rwait 3 1 [sampleEntry]).1 = sampleEntry.rn_result
    ∧ (icmpv6_rwait (-ETIMEDOUT) 1 [sampleEntry]).1 = -ETIMEDOUT
    ∧ (icmpv6_rwait (-5) 1 [sampleEntry]).1 = -5 :=
  ⟨(rwait_return_value 3 1 [sampleEntry] sampleEntry rfl).1 (by decide),
   (rwait_return_value (-ETIMEDOUT) 1 [sampleEntry] sampleEntry rfl).2.1 rfl,
   (rwait_return_value 3 1 [sampleEntry] sampleEntry rfl).2.2 (-5)
     (by decide) [sampleEntry]⟩

/-- Delivery never changes which pointer identities the registry holds: it
only updates one entry in place. -/
theorem containsAddr_rnotify (dev : NetDriver) (draddr pfx : IPv6Addr)
    (preflen : Nat) (a : Nat) (reg : List RNotify) :
    containsAddr a ((icmpv6_rnotify dev draddr pfx preflen reg).2)
      = containsAddr a reg := by
  induction reg with
  | nil => rfl
  | cons e rest ih =>
    by_cases hm : rnotifyMatch dev.d_ifname e = true
    · simp [icmpv6_rnotify, hm, containsAddr]
    · have hm' : rnotifyMatch dev.d_ifname e = false := by
        cases hb : rnotifyMatch dev.d_ifname e
        · rfl
        · exact absurd hb hm
      simp only [icmpv6_rnotify, hm', Bool.false_eq_true, if_false]
      simp only [containsAddr, List.any_cons] at ih ⊢
      rw [ih]

/-- Removing the only occurrence of identity `a` leaves a registry that no
longer contains it. -/
theorem containsAddr_removeFirst (a : Nat) (reg : List RNotify)
    (h : (reg.filter (fun e => e.addr == a)).length ≤ 1) :
    containsAddr a (removeFirst a reg) = false := by
  induction reg with
  | nil => rfl
  | cons e rest ih =>
    by_cases he : e.addr = a
    · rw [removeFirst, if_pos he]
      apply containsAddr_false_of
      intro x hx hxa
      have hmem : x ∈ rest.filter (fun e => e.addr == a) := by
        simp [List.mem_filter, hx, hxa]
      have hlen : 0 < (rest.filter (fun e => e.addr == a)).length :=
        List.length_pos.mpr (List.ne_nil_of_mem hmem)
      have hef : (e.addr == a) = true := by simp [he]
      simp only [List.filter_cons, hef, if_true, List.length_cons] at h
      omega
    · rw [removeFirst, if_neg he]
      have hef : (e.addr == a) = false := by simp [he]
      have h' : (rest.filter (fun e => e.addr == a)).length ≤ 1 := by
        simpa [List.filter_cons, hef] using h
      have hrest := ih h'
      simp only [containsAddr, List.any_cons] at hrest ⊢
      rw [hef, hrest]
      rfl

/-- C4: `icmpv6_rwait` performs the cancel step unconditionally — its
registry effect is exactly that of `icmpv6_rwait_cancel` for every wait
outcome — so afterwards the entry (registered at most once) is no longer in
the registry, and a subsequent delivery scan never finds it. -/
theorem rwait_always_cancels (waitRet : Int) (a : Nat) (reg : List RNotify)
    (hdup : (reg.filter (fun e => e.addr == a)).length ≤ 1) :
    (icmpv6_rwait waitRet a reg).2 = icmpv6_rwait_cancel a reg
    ∧ containsAddr a ((icmpv6_rwait waitRet a reg).2.1) = false
    ∧ ∀ dev draddr pfx preflen,
        containsAddr a
          ((icmpv6_rnotify dev draddr pfx preflen
              ((icmpv6_rwait waitRet a reg).2.1)).2) = false := by
  have hreg : (icmpv6_rwait waitRet a reg).2.1
      = (icmpv6_rwait_cancel a reg).1 := rfl
  have habs : containsAddr a ((icmpv6_rwait_cancel a reg).1) = false := by
    unfold icmpv6_rwait_cancel
    cases hb : containsAddr a reg
    · simp [hb]
    · simp [hb]
      exact containsAddr_removeFirst a reg hdup
  refine ⟨rfl, by rw [hreg]; exact habs, ?_⟩
  intro dev draddr pfx preflen
  rw [containsAddr_rnotify, hreg]
  exact habs

/-- Witness for `rwait_always_cancels`: after a failed wait on a one-entry
registry the entry is gone and a delivery on the resulting registry does
not find it. -/
theorem rwait_always_cancels_witness :
    (icmpv6_rwait (-5) 1 [sampleEntry]).2 = icmpv6_rwait_cancel 1 [sampleEntry]
    ∧ containsAddr 1 ((icmpv6_rwait (-5) 1 [sampleEntry]).2.1) = false
    ∧ containsAddr 1
        ((icmpv6_rnotify sampleDev zeroAddr samplePfx 64
            ((icmpv6_rwait (-5) 1 [sampleEntry]).2.1)).2) = false := by
  have h := rwait_always_cancels (-5) 1 [sampleEntry] (by decide)
  exact ⟨h.1, h.2.1, h.2.2 sampleDev zeroAddr samplePfx 64⟩

/-- Every entry of the registry returned by a delivery is either an
original entry or an original entry with its result set to `OK` and its
semaphore posted once. -/
theorem rnotify_mem (dev : NetDriver) (draddr pfx : IPv6Addr) (preflen : Nat)
    (reg : List RNotify) (x : RNotify)
    (hx : x ∈ (icmpv6_rnotify dev draddr pfx preflen reg).2) :
    x ∈ reg
    ∨ ∃ e ∈ reg, x = { e with rn_result := OK, rn_sem := e.rn_sem + 1 } := by
  induction reg with
  | nil => simp [icmpv6_rnotify] at hx
  | cons e rest ih =>
    by_cases hm : rnotifyMatch dev.d_ifname e = true
    · simp only [icmpv6_rnotify, hm, if_true] at hx
      rcases List.mem_cons.mp hx with rfl | hx'
      · exact Or.inr ⟨e, List.mem_cons_self _ _, rfl⟩
      · exact Or.inl (List.mem_cons_of_mem _ hx')
    · have hm' : rnotifyMatch dev.d_ifname e = false := by
        cases hb : rnotifyMatch dev.d_ifname e
        · rfl
        · exact absurd hb hm
      simp only [icmpv6_rnotify, hm', Bool.false_eq_true, if_false] at hx
      rcases List.mem_cons.mp hx with rfl | hx'
      · exact Or.inl (List.mem_cons_self _ _)
      · rcases ih hx' with h1 | ⟨f, hf, rfl⟩
        · exact Or.inl (List.mem_cons_of_mem _ h1)
        · exact Or.inr ⟨f, List.mem_cons_of_mem _ hf, rfl⟩

/-- Unlinking can only drop entries, never introduce them. -/
theorem mem_removeFirst (a : Nat) (reg : List RNotify) (x : RNotify)
    (hx : x ∈ removeFirst a reg) : x ∈ reg := by
  induction reg with
  | nil => exact absurd hx (List.not_mem_nil x)
  | cons e rest ih =>
    by_cases he : e.addr = a
    · rw [removeFirst, if_pos he] at hx
      exact List.mem_cons_of_mem _ hx
    · rw [removeFirst, if_neg he] at hx
      rcases List.mem_cons.mp hx with rfl | h1
      · exact List.mem_cons_self _ _
      · exact List.mem_cons_of_mem _ (ih h1)

/-- Each operation preserves the two-valued result invariant. -/
theorem resultInv_runOp (reg : List RNotify) (op : Op) (h : resultInv reg) :
    resultInv (runOp reg op) := by
  cases op with
  | setup ifn a =>
    simp only [runOp, icmpv6_rwait_setup]
    intro e he
    rcases List.mem_cons.mp he with rfl | he'
    · exact Or.inl rfl
    · exact h e he'
  | deliver dev draddr pfx preflen =>
    intro x hx
    rcases rnotify_mem dev draddr pfx preflen reg x hx with hx' | ⟨e, _, rfl⟩
    · exact h x hx'
    · exact Or.inr rfl
  | cancel a =>
    intro x hx
    have hmem : x ∈ reg := by
      simp only [runOp, icmpv6_rwait_cancel] at hx
      cases hb : containsAddr a reg
      · rw [hb] at hx
        simpa using hx
      · rw [hb] at hx
        simp at hx
        exact mem_removeFirst a reg x hx
    exact h x hmem

/-- Operation sequences preserve the two-valued result invariant. -/
theorem resultInv_run (reg : List RNotify) (ops : List Op)
    (h : resultInv reg) : resultInv (run reg ops) := by
  induction ops generalizing reg with
  | nil => exact h
  | cons op ops ih => exact ih (runOp reg op) (resultInv_runOp reg op h)

/-- Each operation other than a fresh registration of identity `a`
preserves "every entry with identity `a` is satisfied". -/
theorem addrSatisfied_runOp (a : Nat) (reg : List RNotify) (op : Op)
    (hop : ∀ ifn, op ≠ Op.setup ifn a) (h : addrSatisfied a reg) :
    addrSatisfied a (runOp reg op) := by
  cases op with
  | setup ifn a' =>
    have ha' : a' ≠ a := by
      intro he
      exact hop ifn (by rw [he])
    simp only [runOp, icmpv6_rwait_setup]
    intro e he hea
    rcases List.mem_cons.mp he with rfl | he'
    · exact absurd hea ha'
    · exact h e he' hea
  | deliver dev draddr pfx preflen =>
    intro x hx hxa
    rcases rnotify_mem dev draddr pfx preflen reg x hx with hx' | ⟨e, _, rfl⟩
    · exact h x hx' hxa
    · rfl
  | cancel a' =>
    intro x hx hxa
    have hmem : x ∈ reg := by
      simp only [runOp, icmpv6_rwait_cancel] at hx
      cases hb : containsAddr a' reg
      · rw [hb] at hx
        simpa using hx
      · rw [hb] at hx
        simp at hx
        exact mem_removeFirst a' reg x hx
    exact h x hmem hxa

/-- Sequences free of fresh registrations of identity `a` preserve "every
entry with identity `a` is satisfied"; hence the result of such an entry is
never rewritten. -/
theorem addrSatisfied_run (a : Nat) (reg : List RNotify) (ops : List Op)
    (hops : ∀ ifn, Op.setup ifn a ∉ ops) (h : addrSatisfied a reg) :
    addrSatisfied a (run reg ops) := by
  induction ops generalizing reg with
  | nil => exact h
  | cons op ops ih =>
    have h1 : ∀ ifn, op ≠ Op.setup ifn a := by
      intro ifn he
      exact hops ifn (by rw [← he]; exact List.mem_cons_self _ _)
    have h2 : ∀ ifn, Op.setup ifn a ∉ ops :=
      fun ifn hm => hops ifn (List.mem_cons_of_mem _ hm)
    exact ih (runOp reg op) h2 (addrSatisfied_runOp a reg op h1 h)

/-- An already-satisfied entry passes through a delivery scan untouched, at
its original position. -/
theorem rnotify_getElem_ok (dev : NetDriver) (draddr pfx : IPv6Addr)
    (preflen : Nat) (reg : List RNotify) (i : Nat) (e : RNotify)
    (hget : reg[i]? = some e) (he : e.rn_result = OK) :
    ((icmpv6_rnotify dev draddr pfx preflen reg).2)[i]? = some e := by
  induction reg generalizing i with
  | nil => simp at hget
  | cons f rest ih =>
    by_cases hm : rnotifyMatch dev.d_ifname f = true
    · cases i with
      | zero =>
        have hf : f = e := by simpa using hget
        have hne : f.rn_result ≠ OK := by
          have h1 : f.rn_result ≠ OK ∧ f.rn_ifname = dev.d_ifname := by
            simpa [rnotifyMatch] using hm
          exact h1.1
        exact absurd (hf ▸ he) hne
      | succ j =>
        simp only [icmpv6_rnotify, hm, if_true, List.getElem?_cons_succ]
        simpa using hget
    · have hm' : rnotifyMatch dev.d_ifname f = false := by
        cases hb : rnotifyMatch dev.d_ifname f
        · rfl
        · exact absurd hb hm
      cases i with
      | zero =>
        simp only [icmpv6_rnotify, hm', Bool.false_eq_true, if_false,
                   List.getElem?_cons_zero]
        simpa using hget
      | succ j =>
        simp only [icmpv6_rnotify, hm', Bool.false_eq_true, if_false,
                   List.getElem?_cons_succ]
        exact ih j (by simpa using hget)

/-- C3: the delivery scan predicate requires both an interface match and
that the entry's result still be the registration sentinel (under the
invariant, which every reachable registry satisfies, "different from `OK`"
is exactly "equal to the sentinel"); a satisfied entry is never matched
again and passes through a delivery untouched at its position; and across
any operation sequence that does not re-register an entry's identity, a
satisfied entry's result is never rewritten — so the result field is
written at most once after registration. -/
theorem rnotify_match_discipline :
    (∀ (e : RNotify) (devIf : String),
        e.rn_result = -ETIMEDOUT ∨ e.rn_result = OK →
        (rnotifyMatch devIf e = true ↔
          (e.rn_ifname = devIf ∧ e.rn_result = -ETIMEDOUT)))
    ∧ (∀ ops : List Op, resultInv (run [] ops))
    ∧ (∀ (e : RNotify) (devIf : String), e.rn_result = OK →
        rnotifyMatch devIf e = false)
    ∧ (∀ (dev : NetDriver) (draddr pfx : IPv6Addr) (preflen : Nat)
        (reg : List RNotify) (i : Nat) (e : RNotify),
        reg[i]? = some e → e.rn_result = OK →
        ((icmpv6_rnotify dev draddr pfx preflen reg).2)[i]? = some e)
    ∧ (∀ (a : Nat) (reg : List RNotify) (ops : List Op),
        (∀ ifn, Op.setup ifn a ∉ ops) →
        addrSatisfied a reg → addrSatisfied a (run reg ops)) := by
  refine ⟨?_, ?_, ?_, rnotify_getElem_ok, addrSatisfied_run⟩
  · intro e devIf hinv
    constructor
    · intro hm
      have hm' : e.rn_result ≠ OK ∧ e.rn_ifname = devIf := by
        simpa [rnotifyMatch] using hm
      rcases hinv with h3 | h3
      · exact ⟨hm'.2, h3⟩
      · exact absurd h3 hm'.1
    · rintro ⟨hif, hres⟩
      simp [rnotifyMatch, hif, hres, ETIMEDOUT, OK]
  · intro ops
    exact resultInv_run [] ops (fun e he => absurd he (List.not_mem_nil e))
  · intro e devIf hres
    simp [rnotifyMatch, hres]

/-- Witness for `rnotify_match_discipline` on concrete entries, registries
and operation sequences. -/
theorem rnotify_match_discipline_witness :
    (rnotifyMatch "eth0" sampleEntry = true ↔
      (sampleEntry.rn_ifname = "eth0"
        ∧ sampleEntry.rn_result = -ETIMEDOUT))
    ∧ resultInv (run [] [Op.setup "eth0" 1])
    ∧ rnotifyMatch "eth0" sampleEntryOK = false
    ∧ ((icmpv6_rnotify sampleDev zeroAddr samplePfx 64
          [sampleEntryOK]).2)[0]? = some sampleEntryOK
    ∧ addrSatisfied 3 (run [sampleEntryOK] [Op.cancel 2]) := by
  have h := rnotify_match_discipline
  refine ⟨h.1 sampleEntry "eth0" (Or.inl rfl),
          h.2.1 [Op.setup "eth0" 1],
          h.2.2.1 sampleEntryOK "eth0" rfl,
          h.2.2.2.1 sampleDev zeroAddr samplePfx 64 [sampleEntryOK] 0
            sampleEntryOK rfl rfl,
          h.2.2.2.2 3 [sampleEntryOK] [Op.cancel 2] ?_ ?_⟩
  · intro ifn hm
    simp at hm
  · intro e he hea
    rcases List.mem_cons.mp he with rfl | h0
    · rfl
    · exact absurd h0 (List.not_mem_nil e)

end Rnotify
